import Mathlib

/-
Verification of the discrete-flag framework and Newton-Raphson driver of the
andes repository, shallowly embedded in Lean 4.

Sources embedded here:
- andes/core/discrete.py : DeadBand, Limiter, SortedLimiter, AntiWindup,
  Delay, Derivative
- andes/programs/pflow.py : PFlow.nr_step / PFlow.nr and the stall diagnostic
- andes/core/service.py : ServiceReduce.v lazy caching

NumPy float arrays are embedded as rationals (functions out of Fin n, or
lists); boolean numpy arrays become Bool.  All comparisons are translated
operator-for-operator from the python source.
-/

namespace Andes

/-- Conversion of a boolean flag to the numeric 0/1 value stored in the numpy
flag arrays. -/
def b2q (b : Bool) : ℚ := if b then 1 else 0

/-! ## DeadBand (andes/core/discrete.py, class DeadBand) -/

/-- The five flag arrays stored on a DeadBand instance (scalar element).
All five are numpy float arrays in the source, hence rationals here. -/
structure DBState where
  zu : ℚ
  zl : ℚ
  zi : ℚ
  zur : ℚ
  zlr : ℚ
deriving DecidableEq, Repr

/-- Initial DeadBand state: all five flags are initialized to zero
(DeadBand.__init__, lines 534-538). -/
def DeadBand.init : DBState := ⟨0, 0, 0, 0, 0⟩

/-- Direct translation of DeadBand.check_var (discrete.py lines 543-577).
Local zone values zu, zl, zi are computed with strict comparisons, and ONLY
the two return-memory flags zur, zlr are written back; the stored zone flags
self.zu, self.zl, self.zi are left untouched by the source code. -/
def DeadBand.check_var (enable : Bool) (lower upper u : ℚ) (s : DBState) : DBState :=
  if enable = false then s
  else
    let zu : Bool := decide (upper < u)
    let zl : Bool := decide (u < lower)
    let zi : Bool := !(zu || zl)
    let zur : ℚ := b2q (decide (s.zu + b2q zi = 2)) + s.zur * b2q (decide (b2q zi = s.zi))
    let zlr : ℚ := b2q (decide (s.zl + b2q zi = 2)) + s.zlr * b2q (decide (b2q zi = s.zi))
    ⟨s.zu, s.zl, s.zi, zur, zlr⟩

/-- The update rule as documented in the docstring of DeadBand.check_var
(discrete.py lines 543-568) and in the class notes (lines 484-498), which
state that all five flags are updated: identical to DeadBand.check_var
except that the freshly computed zone flags are also stored. -/
def DeadBand.check_var_documented (enable : Bool) (lower upper u : ℚ) (s : DBState) : DBState :=
  if enable = false then s
  else
    let zu : Bool := decide (upper < u)
    let zl : Bool := decide (u < lower)
    let zi : Bool := !(zu || zl)
    let zur : ℚ := b2q (decide (s.zu + b2q zi = 2)) + s.zur * b2q (decide (b2q zi = s.zi))
    let zlr : ℚ := b2q (decide (s.zl + b2q zi = 2)) + s.zlr * b2q (decide (b2q zi = s.zi))
    ⟨b2q zu, b2q zl, b2q zi, zur, zlr⟩

/-- Feeding a whole input sequence through successive check_var calls. -/
def DeadBand.run (enable : Bool) (lower upper : ℚ) (us : List ℚ) : DBState :=
  us.foldl (fun s u => DeadBand.check_var enable lower upper u s) DeadBand.init

/-- Same input sequence fed through the documented update rule. -/
def DeadBand.run_documented (enable : Bool) (lower upper : ℚ) (us : List ℚ) : DBState :=
  us.foldl (fun s u => DeadBand.check_var_documented enable lower upper u s) DeadBand.init

/-! ## Limiter and SortedLimiter (discrete.py lines 138-242) -/

/-- Flag arrays of a Limiter over n elements. -/
structure LimFlags (n : ℕ) where
  zu : Fin n → Bool
  zl : Fin n → Bool
  zi : Fin n → Bool

/-- Translation of Limiter.check_var (discrete.py lines 196-208): numpy
greater_equal / less_equal comparisons, with the lower_only / upper_only
switches skipping one side.  prev holds the flags from before the call
(returned unchanged when the limiter is disabled, and supplying the
untouched side for one-sided configurations). -/
def Limiter.check_var {n : ℕ} (enable lower_only upper_only : Bool)
    (uv lowerv upperv : Fin n → ℚ) (prev : LimFlags n) : LimFlags n :=
  if enable = false then prev
  else
    let zu : Fin n → Bool := fun i => if lower_only then prev.zu i else decide (upperv i ≤ uv i)
    let zl : Fin n → Bool := fun i => if upper_only then prev.zl i else decide (uv i ≤ lowerv i)
    ⟨zu, zl, fun i => !(zu i || zl i)⟩

/-- Stable insertion of an index into a list sorted by key (ties resolved by
index order), used to embed np.argsort. -/
def argsortInsert {n : ℕ} (key : Fin n → ℚ) (i : Fin n) : List (Fin n) → List (Fin n)
  | [] => [i]
  | j :: rest =>
    if key i < key j ∨ (key i = key j ∧ i < j) then i :: j :: rest
    else j :: argsortInsert key i rest

/-- Embedding of np.argsort(key) : the indices 0..n-1 sorted by ascending key.
For keys without ties this agrees with numpy regardless of the sort kind. -/
def argsort {n : ℕ} (key : Fin n → ℚ) : List (Fin n) :=
  (List.finRange n).foldr (argsortInsert key) []

/-- The indices selected by SortedLimiter.check_var (lines 229-237): members
of the first n_select entries of argsort(u - lower) (the n_select most
extreme below the lower bound) or of the first n_select entries of
argsort(upper - u) (the n_select most extreme above the upper bound).
These are exactly the positions where reset_in is assigned 0. -/
def SortedLimiter.selected {n : ℕ} (uv lowerv upperv : Fin n → ℚ)
    (n_select : ℕ) (i : Fin n) : Bool :=
  decide (i ∈ (argsort (fun j => uv j - lowerv j)).take n_select) ||
  decide (i ∈ (argsort (fun j => upperv j - uv j)).take n_select)

/-- Translation of SortedLimiter.check_var (discrete.py lines 223-242):
first the plain Limiter flags, then, when n_select > 0, the reset_in /
reset_out masks (reset_in = 1 except at the selected indices) are applied as
zi := reset_in or zi, zl := reset_out and zl, zu := reset_out and zu. -/
def SortedLimiter.check_var {n : ℕ} (enable : Bool) (uv lowerv upperv : Fin n → ℚ)
    (n_select : ℕ) (prev : LimFlags n) : LimFlags n :=
  if enable = false then prev
  else
    let fl := Limiter.check_var true false false uv lowerv upperv prev
    if n_select = 0 then fl
    else
      let reset_in : Fin n → Bool := fun i => !(SortedLimiter.selected uv lowerv upperv n_select i)
      ⟨fun i => (!reset_in i) && fl.zu i,
       fun i => (!reset_in i) && fl.zl i,
       fun i => reset_in i || fl.zi i⟩

/-! ## AntiWindup (discrete.py lines 252-318) -/

/-- Result of AntiWindup.set_eq on an n-element governed state: the updated
residual array state.e, the updated value array state.v, and the x_set list
of (address, forced-value) pairs. -/
structure AWResult (n : ℕ) where
  e : Fin n → ℚ
  v : Fin n → ℚ
  x_set : List (ℕ × ℚ)

/-- Translation of AntiWindup.check_eq (discrete.py lines 283-291):
zu = (u.v >= upper.v) and (state.e >= 0); zl = (u.v <= lower.v) and
(state.e <= 0); zi = not (zu or zl).  uv is self.u.v, se is self.state.e. -/
def AntiWindup.check_eq {n : ℕ} (uv lowerv upperv se : Fin n → ℚ) : LimFlags n :=
  let zu : Fin n → Bool := fun i => decide (upperv i ≤ uv i) && decide (0 ≤ se i)
  let zl : Fin n → Bool := fun i => decide (uv i ≤ lowerv i) && decide (se i ≤ 0)
  ⟨zu, zl, fun i => !(zu i || zl i)⟩

/-- Translation of AntiWindup.set_eq (discrete.py lines 293-310).  x_set is
flushed at the beginning of every call, so the x_set_prev argument (the list
held before the call) is discarded.  When some zi is 0:
state.e := state.e * zi, state.v := state.v * zi + upper.v * zu +
lower.v * zl, and the pair of arrays (state.a[idx], state.v[idx]) for
idx = where(zi == 0) is appended, represented here as the list of
(address, value) pairs at those indices. -/
def AntiWindup.set_eq {n : ℕ} (fl : LimFlags n) (a : Fin n → ℕ)
    (se sv upperv lowerv : Fin n → ℚ) (x_set_prev : List (ℕ × ℚ)) : AWResult n :=
  if (List.finRange n).all (fun i => fl.zi i) then ⟨se, sv, []⟩
  else
    let e2 : Fin n → ℚ := fun i => se i * b2q (fl.zi i)
    let v2 : Fin n → ℚ := fun i =>
      sv i * b2q (fl.zi i) + upperv i * b2q (fl.zu i) + lowerv i * b2q (fl.zl i)
    ⟨e2, v2, ((List.finRange n).filter (fun i => !(fl.zi i))).map (fun i => (a i, v2 i))⟩

/-! ## Delay, Derivative (discrete.py lines 580-702) -/

/-- The two buffer modes of Delay. -/
inductive DMode
  | step
  | time
deriving DecidableEq

/-- State of a Delay instance for a scalar input: the time stamps self.t,
the sample buffer self._v_mem (one row), the output self.v and the rewind
flag. -/
structure DelayState where
  t : List ℚ
  mem : List ℚ
  v : ℚ
  rewind : Bool
deriving DecidableEq, Repr

/-- Overwrite the last entry of a list (numpy a[-1] = x on a nonempty
array). -/
def setLast (l : List ℚ) (x : ℚ) : List ℚ := l.set (l.length - 1) x

/-- Modelled from the spec: andes.utils.func.interp_n2 is imported by
discrete.py but its source is not under src/; per the specification the time
mode "performs linear interpolation to synthesize a sample exactly delay
seconds behind now", i.e. two-point linear interpolation of (t0, v0),
(t1, v1) at t. -/
def interp_n2 (t t0 t1 v0 v1 : ℚ) : ℚ := v0 + (v1 - v0) * (t - t0) / (t1 - t0)

/-- Translation of Delay.check_var (discrete.py lines 615-657) for a scalar
input u at time dae_t.  Branches in source order: dae_t == 0 refills the
whole buffer; dae_t < t[-1] sets rewind and overwrites the last sample and
stamp in place; dae_t == t[-1] overwrites the last sample in place;
dae_t > t[-1] shifts-and-appends (step mode) or appends and prunes by
interpolation (time mode).  The output v is the first buffer column. -/
def Delay.check_var (mode : DMode) (delay : ℚ) (dae_t u : ℚ) (s : DelayState) : DelayState :=
  if dae_t = 0 then
    let mem2 := s.mem.map (fun _ => u)
    ⟨s.t, mem2, mem2.headD 0, false⟩
  else if dae_t < s.t.getLastD 0 then
    let t2 := setLast s.t dae_t
    let mem2 := setLast s.mem u
    ⟨t2, mem2, mem2.headD 0, true⟩
  else if dae_t = s.t.getLastD 0 then
    let mem2 := setLast s.mem u
    ⟨s.t, mem2, mem2.headD 0, false⟩
  else
    match mode with
    | DMode.step =>
      let t2 := s.t.tail ++ [dae_t]
      let mem2 := s.mem.tail ++ [u]
      ⟨t2, mem2, mem2.headD 0, false⟩
    | DMode.time =>
      let t2 := s.t ++ [dae_t]
      let mem2 := s.mem ++ [u]
      if delay < dae_t - t2.headD 0 then
        let ti := dae_t - delay
        let idx := (t2.findIdx (fun a => decide (ti ≤ a))) - 1
        let vi := interp_n2 ti (t2.getD idx 0) (t2.getD (idx + 1) 0)
                    (mem2.getD idx 0) (mem2.getD (idx + 1) 0)
        let t3 := (t2.set idx ti).drop idx
        let mem3 := (mem2.set idx vi).drop idx
        ⟨t3, mem3, mem3.headD 0, false⟩
      else ⟨t2, mem2, mem2.headD 0, false⟩

/-- Initial Delay storage for a scalar Derivative: mode step, delay = 1, so
list2array allocates t = zeros(2) and _v_mem = zeros(1, 2)
(discrete.py lines 604-611, 688-690). -/
def Derivative.init : DelayState := ⟨[0, 0], [0, 0], 0, false⟩

/-- Translation of Derivative.check_var (discrete.py lines 692-702): run
Delay.check_var in step mode with delay 1, then set v to 0 at the initial
step or right after a rewind, otherwise to the finite difference
(_v_mem[1] - _v_mem[0]) / (t[1] - t[0]), zeroed wherever v < 1e-8. -/
def Derivative.check_var (dae_t u : ℚ) (s : DelayState) : DelayState :=
  let s2 := Delay.check_var DMode.step 1 dae_t u s
  if dae_t = 0 ∨ s2.rewind = true then ⟨s2.t, s2.mem, 0, s2.rewind⟩
  else
    let d := (s2.mem.getD 1 0 - s2.mem.getD 0 0) / (s2.t.getD 1 0 - s2.t.getD 0 0)
    ⟨s2.t, s2.mem, if d < 1 / 100000000 then 0 else d, s2.rewind⟩

/-! ## Newton-Raphson driver (andes/programs/pflow.py) -/

/-- The residual of the trivial linear algebraic system of the claim:
the single equation 2x - 4 = 0 in residual form, held in dae.g. -/
def g_res (y : ℚ) : ℚ := 2 * y - 4

/-- Translation of PFlow.nr_step (pflow.py lines 33-65) for the system
g_res with its exact Jacobian dg/dy = 2: the increment solves
A * inc = -g, y is incremented, and the returned mismatch
max(abs([f, g])) is evaluated on the residual computed BEFORE the update
(f_update/g_update ran at the top of nr_step).  Returns (new y, mismatch). -/
def nr_step_lin (y : ℚ) : ℚ × ℚ := (y + (-(g_res y)) / 2, |g_res y|)

/-- The while-loop of PFlow.nr (pflow.py lines 78-90) specialized to the
linear system, written with a fuel argument (the loop always exits within
maxIter + 2 steps via the niter > max_iter branch).  mis0 is self.mis[0],
the mismatch recorded by the first nr_step call.  Returns
(converged, niter, y). -/
def nr_loop_lin (tol : ℚ) (maxIter : ℕ) : ℕ → ℚ → ℚ → ℕ → Bool × ℕ × ℚ
  | 0, y, _, niter => (false, niter, y)
  | fuel + 1, y, mis0, niter =>
    let r := nr_step_lin y
    if r.2 < tol then (true, niter, r.1)
    else if maxIter < niter then (false, niter, r.1)
    else if 10000 * mis0 < r.2 then (false, niter, r.1)
    else nr_loop_lin tol maxIter fuel r.1 mis0 (niter + 1)

/-- PFlow.nr (pflow.py lines 67-99) on the linear system: niter starts at 0
and the first recorded mismatch is the residual at the initial point y0. -/
def nr_lin (y0 tol : ℚ) (maxIter : ℕ) : Bool × ℕ × ℚ :=
  nr_loop_lin tol maxIter (maxIter + 2) y0 |g_res y0| 0

/-- The same while-loop of PFlow.nr over an arbitrary system, abstracting
nr_step by the stream m of mismatches it returns (m k is the mismatch of the
(k+1)-th nr_step call); the loop control flow (pflow.py lines 78-90) only
reads these mismatches.  Returns (converged, niter). -/
def nr_loop_gen (m : ℕ → ℚ) (tol mis0 : ℚ) (maxIter : ℕ) : ℕ → ℕ → Bool × ℕ
  | 0, niter => (false, niter)
  | fuel + 1, niter =>
    let mis := m niter
    if mis < tol then (true, niter)
    else if maxIter < niter then (false, niter)
    else if 10000 * mis0 < mis then (false, niter)
    else nr_loop_gen m tol mis0 maxIter fuel (niter + 1)

/-- PFlow.nr over an arbitrary mismatch stream: self.mis[0] is the first
mismatch m 0. -/
def nr_gen (m : ℕ → ℚ) (tol : ℚ) (maxIter : ℕ) : Bool × ℕ :=
  nr_loop_gen m tol (m 0) maxIter (maxIter + 2) 0

/-- np.argmax(np.abs(l)) : first index attaining the maximum absolute
value (numpy argmax returns the first occurrence). -/
def argmaxAbsAux : List ℚ → ℕ → ℕ → ℚ → ℕ
  | [], _, best, _ => best
  | x :: rest, k, best, bestv =>
    if bestv < |x| then argmaxAbsAux rest (k + 1) k |x|
    else argmaxAbsAux rest (k + 1) best bestv

/-- First index of the element of largest absolute value. -/
def argmaxAbs : List ℚ → ℕ
  | [] => 0
  | x :: rest => argmaxAbsAux rest 1 0 |x|

/-- Exit state of a Newton-Raphson run, as read by the stall diagnostic in
PFlow.nr (pflow.py lines 92-97).  The dae container class is not under src/;
its fields are modelled from their use in PFlow.nr_step (lines 49-60):
dae.x / dae.y are the stacked solution values that the increment is applied
to, dae.f / dae.g the residual vectors the increment is solved from, so xy
is the stacked variable-value vector and fg the stacked residual vector;
xy_name lists the name associated with each slot. -/
structure NRExit where
  converged : Bool
  mis : List ℚ
  xy : List ℚ
  fg : List ℚ
  xy_name : List String

/-- Translation of the stall diagnostic of PFlow.nr (pflow.py lines 92-97):
when the run did not converge and the last two mismatches differ by less
than tol, report xy_name[argmax(abs(dae.xy))]. -/
def nr_stall_report (tol : ℚ) (s : NRExit) : Option String :=
  if s.converged = false ∧ |s.mis.getLastD 0 - s.mis.dropLast.getLastD 0| < tol
  then some (s.xy_name.getD (argmaxAbs s.xy) "")
  else none

/-- The diagnostic as the specification words it: report the name associated
with the equation having the largest absolute residual at exit, i.e. the
argmax is taken over the residual vector fg instead of the value vector xy. -/
def spec_stall_report (tol : ℚ) (s : NRExit) : Option String :=
  if s.converged = false ∧ |s.mis.getLastD 0 - s.mis.dropLast.getLastD 0| < tol
  then some (s.xy_name.getD (argmaxAbs s.fg) "")
  else none

/-! ## ServiceReduce (andes/core/service.py lines 188-263) -/

/-- The loop body of the ServiceReduce.v property (service.py lines 255-261):
for each group in ref.v, apply the reduction function to the contiguous
slice u.v[idx : idx + len(group)] and advance idx. -/
def reduce_compute (f : List ℚ → ℚ) (uv : List ℚ) : List (List ℕ) → ℕ → List ℚ
  | [], _ => []
  | g :: rest, idx => f ((uv.drop idx).take g.length) :: reduce_compute f uv rest (idx + g.length)

/-- Translation of the ServiceReduce.v property (service.py lines 246-263):
if the cache self._v is None, compute the per-group reductions, store and
return them; otherwise return the cached array unchanged.  Returns the
value read together with the cache after the read. -/
def ServiceReduce.read (f : List ℚ → ℚ) (ref : List (List ℕ)) (uv : List ℚ) :
    Option (List ℚ) → List ℚ × Option (List ℚ)
  | none => let r := reduce_compute f uv ref 0; (r, some r)
  | some r => (r, some r)

/-- Start offset of group i in the flat input array: the sum of the lengths
of the preceding groups. -/
def group_offset (ref : List (List ℕ)) (i : ℕ) : ℕ :=
  ((ref.take i).map List.length).sum

/-- The contiguous slice of the flat input belonging to group i. -/
def group_slice (uv : List ℚ) (ref : List (List ℕ)) (i : ℕ) : List ℚ :=
  (uv.drop (group_offset ref i)).take (ref.getD i []).length

/-! ## Concrete instances used by counterexamples and witnesses -/

/-- Three-element input vector for the SortedLimiter instance. -/
def u3 : Fin 3 → ℚ := ![-5, -1, 3]

/-- Lower bounds for the SortedLimiter instance. -/
def l3 : Fin 3 → ℚ := ![0, 0, 0]

/-- Upper bounds for the SortedLimiter instance. -/
def up3 : Fin 3 → ℚ := ![10, 10, 10]

/-- Limiter flags before the call: the constructor defaults
zu = 0, zl = 0, zi = 1 (discrete.py lines 182-184). -/
def prev3 : LimFlags 3 := ⟨fun _ => false, fun _ => false, fun _ => true⟩

/-- A stalled, unconverged Newton exit: the two recorded mismatches are both
5, the variable-value vector is [2, 0] and the residual vector is [0, 3], so
the largest absolute value and the largest absolute residual sit at
different slots. -/
def stallExit : NRExit := ⟨false, [5, 5], [2, 0], [0, 3], ["bus1_v", "bus2_v"]⟩

/-- A mismatch stream whose fourth value jumps past 10000 times the first
one: 1, 1, 1, 100000000, ... -/
def mis_stream (j : ℕ) : ℚ := if j < 3 then 1 else 100000000

/-! # Theorems -/

/-- For any Bool b, the set-condition of the return flag can never fire when
the stored zone flag is 0: 0 + (0 or 1) never equals 2. -/
theorem b2q_zero_add_ne_two (b : Bool) : b2q (decide ((0 : ℚ) + b2q b = 2)) = 0 := by
  cases b <;> norm_num [b2q]

/-- One check_var call keeps both the stored zu flag and zur at zero:
check_var never writes the stored zone flags, and with s.zu = 0 the
set-condition prev-zu + zi == 2 cannot hold, while the hold term is
multiplied by s.zur = 0. -/
theorem DeadBand.check_var_keeps_zur_zero (enable : Bool) (lower upper u : ℚ)
    (s : DBState) (hzu : s.zu = 0) (hzur : s.zur = 0) :
    (DeadBand.check_var enable lower upper u s).zu = 0 ∧
    (DeadBand.check_var enable lower upper u s).zur = 0 := by
  unfold DeadBand.check_var
  by_cases he : enable = false
  · rw [if_pos he]; exact ⟨hzu, hzur⟩
  · rw [if_neg he]
    refine ⟨hzu, ?_⟩
    simp only [hzu, hzur, zero_mul, add_zero]
    exact b2q_zero_add_ne_two _

/-- Feeding any input sequence from the initial state leaves zu and zur at
zero forever. -/
theorem DeadBand.foldl_zur_zero (enable : Bool) (lower upper : ℚ) (us : List ℚ) :
    ∀ s : DBState, s.zu = 0 → s.zur = 0 →
      (us.foldl (fun s u => DeadBand.check_var enable lower upper u s) s).zu = 0 ∧
      (us.foldl (fun s u => DeadBand.check_var enable lower upper u s) s).zur = 0 := by
  induction us with
  | nil => intro s h1 h2; exact ⟨h1, h2⟩
  | cons a rest ih =>
    intro s h1 h2
    simp only [List.foldl_cons]
    obtain ⟨k1, k2⟩ := DeadBand.check_var_keeps_zur_zero enable lower upper a s h1 h2
    exact ih _ k1 k2

/-- Claim C1: the claim states that a rise above the upper bound followed by
a return into the band sets zur = 1 on the return step.  The code cannot do
this: DeadBand.check_var never stores the computed zone flags, so the
stored zu stays 0 and zur stays 0 for every enabled or disabled input
sequence — while the documented update rule (which also stores the zone
flags) does set zur = 1 on the rise-and-return sequence [2, 0] with band
[-1, 1]. -/
theorem deadband_zur_never_set :
    (∀ (enable : Bool) (lower upper : ℚ) (us : List ℚ),
        (DeadBand.run enable lower upper us).zur = 0) ∧
    (DeadBand.run_documented true (-1) 1 [2, 0]).zur = 1 := by
  constructor
  · intro enable lower upper us
    exact (DeadBand.foldl_zur_zero enable lower upper us DeadBand.init rfl rfl).2
  · norm_num [DeadBand.run_documented, DeadBand.check_var_documented, DeadBand.init, b2q]

/-- The zi flag produced by AntiWindup.check_eq is the negation of the
disjunction of the zu and zl flags. -/
theorem AntiWindup.check_eq_zi {n : ℕ} (uv lowerv upperv se : Fin n → ℚ) (i : Fin n) :
    (AntiWindup.check_eq uv lowerv upperv se).zi i
      = !((AntiWindup.check_eq uv lowerv upperv se).zu i ||
          (AntiWindup.check_eq uv lowerv upperv se).zl i) := rfl

/-- Claim C5: for an AntiWindup element whose governed value sits exactly at
the upper bound with a nonnegative derivative residual (and a genuine band,
lower < upper), check_eq followed by set_eq forces the residual to 0, pins
the value at the upper bound, and records the (address, clamped-value) pair
in x_set. -/
theorem antiwindup_upper_pin {n : ℕ} (uv lowerv upperv se sv : Fin n → ℚ)
    (a : Fin n → ℕ) (xp : List (ℕ × ℚ)) (i : Fin n)
    (hu : uv i = upperv i) (hul : lowerv i < upperv i) (he : 0 ≤ se i) :
    (AntiWindup.set_eq (AntiWindup.check_eq uv lowerv upperv se) a se sv upperv lowerv xp).e i = 0 ∧
    (AntiWindup.set_eq (AntiWindup.check_eq uv lowerv upperv se) a se sv upperv lowerv xp).v i = upperv i ∧
    (a i, upperv i) ∈
      (AntiWindup.set_eq (AntiWindup.check_eq uv lowerv upperv se) a se sv upperv lowerv xp).x_set := by
  have hzu : (AntiWindup.check_eq uv lowerv upperv se).zu i = true := by
    simp [AntiWindup.check_eq, hu, he]
  have hzl : (AntiWindup.check_eq uv lowerv upperv se).zl i = false := by
    have h1 : ¬ uv i ≤ lowerv i := by rw [hu]; exact not_le.mpr hul
    simp [AntiWindup.check_eq, h1]
  have hzi : (AntiWindup.check_eq uv lowerv upperv se).zi i = false := by
    rw [AntiWindup.check_eq_zi, hzu, hzl]
    rfl
  have hall : ¬ ((List.finRange n).all
      (fun j => (AntiWindup.check_eq uv lowerv upperv se).zi j) = true) := by
    rw [List.all_eq_true]
    intro hforall
    have := hforall i (List.mem_finRange i)
    rw [hzi] at this
    exact Bool.false_ne_true this
  unfold AntiWindup.set_eq
  rw [if_neg hall]
  have hv : sv i * b2q ((AntiWindup.check_eq uv lowerv upperv se).zi i)
      + upperv i * b2q ((AntiWindup.check_eq uv lowerv upperv se).zu i)
      + lowerv i * b2q ((AntiWindup.check_eq uv lowerv upperv se).zl i) = upperv i := by
    rw [hzi, hzu, hzl]; norm_num [b2q]
  refine ⟨?_, hv, ?_⟩
  · show se i * b2q ((AntiWindup.check_eq uv lowerv upperv se).zi i) = 0
    rw [hzi]; norm_num [b2q]
  · show (a i, upperv i) ∈ ((List.finRange n).filter
        (fun j => !((AntiWindup.check_eq uv lowerv upperv se).zi j))).map
        (fun j => (a j, sv j * b2q ((AntiWindup.check_eq uv lowerv upperv se).zi j)
          + upperv j * b2q ((AntiWindup.check_eq uv lowerv upperv se).zu j)
          + lowerv j * b2q ((AntiWindup.check_eq uv lowerv upperv se).zl j)))
    refine List.mem_map.mpr ⟨i, List.mem_filter.mpr ⟨List.mem_finRange i, ?_⟩, ?_⟩
    · rw [hzi]; rfl
    · rw [hv]

/-- Witness for claim C5: one element with value 1 = upper bound, lower
bound 0, residual 2, address 4; the residual is zeroed, the value stays at
the bound, and (4, 1) lands in x_set. -/
theorem antiwindup_upper_pin_witness :
    (AntiWindup.set_eq (AntiWindup.check_eq (fun _ : Fin 1 => (1 : ℚ)) (fun _ => 0) (fun _ => 1) (fun _ => 2))
        (fun _ => 4) (fun _ => 2) (fun _ => 1) (fun _ => 1) (fun _ => 0) []).e 0 = 0 ∧
    (AntiWindup.set_eq (AntiWindup.check_eq (fun _ : Fin 1 => (1 : ℚ)) (fun _ => 0) (fun _ => 1) (fun _ => 2))
        (fun _ => 4) (fun _ => 2) (fun _ => 1) (fun _ => 1) (fun _ => 0) []).v 0 = 1 ∧
    ((4 : ℕ), (1 : ℚ)) ∈
      (AntiWindup.set_eq (AntiWindup.check_eq (fun _ : Fin 1 => (1 : ℚ)) (fun _ => 0) (fun _ => 1) (fun _ => 2))
        (fun _ => 4) (fun _ => 2) (fun _ => 1) (fun _ => 1) (fun _ => 0) []).x_set :=
  antiwindup_upper_pin (n := 1) (fun _ => 1) (fun _ => 0) (fun _ => 1) (fun _ => 2) (fun _ => 1)
    (fun _ => 4) [] 0 rfl (by norm_num) (by norm_num)

/-- Claim C10: every set_eq call flushes x_set first, so its output does not
depend on the previously held list and contains only pairs produced by the
current call; and every element whose zi flag is 1 keeps its residual and
value untouched. -/
theorem antiwindup_set_eq_frame {n : ℕ} (uv lowerv upperv se sv : Fin n → ℚ)
    (a : Fin n → ℕ) (xp : List (ℕ × ℚ)) :
    AntiWindup.set_eq (AntiWindup.check_eq uv lowerv upperv se) a se sv upperv lowerv xp
      = AntiWindup.set_eq (AntiWindup.check_eq uv lowerv upperv se) a se sv upperv lowerv [] ∧
    (∀ p ∈ (AntiWindup.set_eq (AntiWindup.check_eq uv lowerv upperv se) a se sv upperv lowerv xp).x_set,
      ∃ i : Fin n, (AntiWindup.check_eq uv lowerv upperv se).zi i = false ∧
        p = (a i, (AntiWindup.set_eq (AntiWindup.check_eq uv lowerv upperv se) a se sv upperv lowerv xp).v i)) ∧
    (∀ i : Fin n, (AntiWindup.check_eq uv lowerv upperv se).zi i = true →
      (AntiWindup.set_eq (AntiWindup.check_eq uv lowerv upperv se) a se sv upperv lowerv xp).e i = se i ∧
      (AntiWindup.set_eq (AntiWindup.check_eq uv lowerv upperv se) a se sv upperv lowerv xp).v i = sv i) := by
  refine ⟨rfl, ?_, ?_⟩
  · by_cases hall : ((List.finRange n).all
        (fun j => (AntiWindup.check_eq uv lowerv upperv se).zi j) = true)
    · unfold AntiWindup.set_eq
      rw [if_pos hall]
      intro p hp
      exact absurd hp (List.not_mem_nil p)
    · unfold AntiWindup.set_eq
      rw [if_neg hall]
      intro p hp
      simp only [List.mem_map, List.mem_filter] at hp
      obtain ⟨i, ⟨_, hzi⟩, hpv⟩ := hp
      exact ⟨i, by simpa using hzi, hpv.symm⟩
  · intro i hzi
    have hzul : (AntiWindup.check_eq uv lowerv upperv se).zu i = false ∧
        (AntiWindup.check_eq uv lowerv upperv se).zl i = false := by
      have h := (AntiWindup.check_eq_zi uv lowerv upperv se i).symm.trans hzi
      simpa using h
    by_cases hall : ((List.finRange n).all
        (fun j => (AntiWindup.check_eq uv lowerv upperv se).zi j) = true)
    · unfold AntiWindup.set_eq
      rw [if_pos hall]
      exact ⟨rfl, rfl⟩
    · unfold AntiWindup.set_eq
      rw [if_neg hall]
      constructor
      · show se i * b2q ((AntiWindup.check_eq uv lowerv upperv se).zi i) = se i
        rw [hzi]; norm_num [b2q]
      · show sv i * b2q ((AntiWindup.check_eq uv lowerv upperv se).zi i)
          + upperv i * b2q ((AntiWindup.check_eq uv lowerv upperv se).zu i)
          + lowerv i * b2q ((AntiWindup.check_eq uv lowerv upperv se).zl i) = sv i
        rw [hzi, hzul.1, hzul.2]; norm_num [b2q]

/-- Witness for claim C10: a within-band element (value 0, band [-1, 1],
residual 5, stored value 3) with a nonempty previous x_set [(9, 9)]; the
call leaves residual and value unchanged. -/
theorem antiwindup_set_eq_frame_witness :
    (AntiWindup.set_eq (AntiWindup.check_eq (fun _ : Fin 1 => (0 : ℚ)) (fun _ => -1) (fun _ => 1) (fun _ => 5))
        (fun _ => 7) (fun _ => 5) (fun _ => 3) (fun _ => 1) (fun _ => -1) [(9, 9)]).e 0 = 5 ∧
    (AntiWindup.set_eq (AntiWindup.check_eq (fun _ : Fin 1 => (0 : ℚ)) (fun _ => -1) (fun _ => 1) (fun _ => 5))
        (fun _ => 7) (fun _ => 5) (fun _ => 3) (fun _ => 1) (fun _ => -1) [(9, 9)]).v 0 = 3 :=
  (antiwindup_set_eq_frame (n := 1) (fun _ => 0) (fun _ => -1) (fun _ => 1) (fun _ => 5)
      (fun _ => 3) (fun _ => 7) [(9, 9)]).2.2 0
    (by norm_num [AntiWindup.check_eq])

/-- Claim C2 (amended): for an enabled SortedLimiter with n_select = n > 0,
check_var forces zi to 1 and zl, zu to 0 exactly on the elements NOT among
the n most-extreme-below-lower or n most-extreme-above-upper (so the
unselected elements bypass clamping), while the selected most-extreme
elements keep the plain-limiter flags — the opposite roles of what the
original claim states. -/
theorem sorted_limiter_flags {n : ℕ} (uv lowerv upperv : Fin n → ℚ)
    (n_select : ℕ) (hpos : 0 < n_select) (prev : LimFlags n) (i : Fin n) :
    (SortedLimiter.selected uv lowerv upperv n_select i = false →
      (SortedLimiter.check_var true uv lowerv upperv n_select prev).zi i = true ∧
      (SortedLimiter.check_var true uv lowerv upperv n_select prev).zl i = false ∧
      (SortedLimiter.check_var true uv lowerv upperv n_select prev).zu i = false) ∧
    (SortedLimiter.selected uv lowerv upperv n_select i = true →
      (SortedLimiter.check_var true uv lowerv upperv n_select prev).zu i
        = (Limiter.check_var true false false uv lowerv upperv prev).zu i ∧
      (SortedLimiter.check_var true uv lowerv upperv n_select prev).zl i
        = (Limiter.check_var true false false uv lowerv upperv prev).zl i ∧
      (SortedLimiter.check_var true uv lowerv upperv n_select prev).zi i
        = (Limiter.check_var true false false uv lowerv upperv prev).zi i) := by
  have hne : ¬ (n_select = 0) := Nat.pos_iff_ne_zero.mp hpos
  constructor
  · intro hsel
    refine ⟨?_, ?_, ?_⟩ <;> simp [SortedLimiter.check_var, hne, hsel]
  · intro hsel
    refine ⟨?_, ?_, ?_⟩ <;> simp [SortedLimiter.check_var, hne, hsel]

/-- Counterexample to claim C2 as stated: with u = [-5, -1, 3], bounds
[0, 10] for all three elements, and n_select = 1, element 0 is the single
most-extreme-below-lower element (it is selected), yet its flags stay at the
plain-limiter values zi = 0, zl = 1 instead of being forced to zi = 1,
zl = 0 — and the unselected violating element 1, which the claim says keeps
the plain flags (zl = 1), is instead released to zi = 1, zl = 0. -/
theorem sorted_limiter_claim_cex :
    SortedLimiter.selected u3 l3 up3 1 0 = true ∧
    (SortedLimiter.check_var true u3 l3 up3 1 prev3).zi 0 = false ∧
    (SortedLimiter.check_var true u3 l3 up3 1 prev3).zl 0 = true ∧
    SortedLimiter.selected u3 l3 up3 1 1 = false ∧
    (Limiter.check_var true false false u3 l3 up3 prev3).zl 1 = true ∧
    (SortedLimiter.check_var true u3 l3 up3 1 prev3).zl 1 = false ∧
    (SortedLimiter.check_var true u3 l3 up3 1 prev3).zi 1 = true := by
  refine ⟨?_, ?_, ?_, ?_, ?_, ?_, ?_⟩ <;>
    norm_num [SortedLimiter.check_var, SortedLimiter.selected, Limiter.check_var,
      argsort, argsortInsert, u3, l3, up3, prev3,
      show List.finRange 3 = [0, 1, 2] by decide] <;> decide

/-- Witness for claim C2 (amended): in the same concrete instance, the
unselected element 1 is released to zi = 1, zl = zu = 0. -/
theorem sorted_limiter_flags_witness :
    (0 : ℕ) < 1 ∧ SortedLimiter.selected u3 l3 up3 1 1 = false ∧
    (SortedLimiter.check_var true u3 l3 up3 1 prev3).zi 1 = true ∧
    (SortedLimiter.check_var true u3 l3 up3 1 prev3).zl 1 = false ∧
    (SortedLimiter.check_var true u3 l3 up3 1 prev3).zu 1 = false := by
  have hsel : SortedLimiter.selected u3 l3 up3 1 1 = false := by
    norm_num [SortedLimiter.selected, argsort, argsortInsert, u3, l3, up3,
      show List.finRange 3 = [0, 1, 2] by decide] <;> decide
  have h := (sorted_limiter_flags u3 l3 up3 1 (by norm_num) prev3 1).1 hsel
  exact ⟨by norm_num, hsel, h.1, h.2.1, h.2.2⟩

/-- One unfolding of the linear-system Newton loop at positive fuel. -/
theorem nr_loop_lin_succ (tol : ℚ) (maxIter fuel : ℕ) (y mis0 : ℚ) (niter : ℕ) :
    nr_loop_lin tol maxIter (fuel + 1) y mis0 niter =
      (if (nr_step_lin y).2 < tol then (true, niter, (nr_step_lin y).1)
       else if maxIter < niter then (false, niter, (nr_step_lin y).1)
       else if 10000 * mis0 < (nr_step_lin y).2 then (false, niter, (nr_step_lin y).1)
       else nr_loop_lin tol maxIter fuel (nr_step_lin y).1 mis0 (niter + 1)) := rfl

/-- Claim C3: on the single linear equation 2x - 4 = 0 with its exact
Jacobian and tolerance 1e-6, starting from any initial guess whose residual
is not already within tolerance, the Newton-Raphson driver exits with
converged = true, niter = 1 and the solved value exactly 2 (hence within
tolerance of 2). -/
theorem nr_lin_one_iteration (y0 : ℚ) (h : 1 / 1000000 ≤ |g_res y0|) :
    nr_lin y0 (1 / 1000000) 20 = (true, 1, 2) := by
  have hstep : nr_step_lin y0 = (2, |g_res y0|) := by
    unfold nr_step_lin
    have h1 : y0 + -(g_res y0) / 2 = 2 := by unfold g_res; ring
    rw [h1]
  have hstep2 : nr_step_lin 2 = (2, 0) := by
    unfold nr_step_lin g_res
    norm_num
  unfold nr_lin
  rw [show (20 : ℕ) + 2 = 21 + 1 from rfl, nr_loop_lin_succ, hstep]
  rw [if_neg (not_lt.mpr h)]
  rw [if_neg (by omega : ¬ ((20 : ℕ) < 0))]
  have hq : ¬ ((10000 : ℚ) * |g_res y0| < ((2 : ℚ), |g_res y0|).2) := by
    have h0 : (0 : ℚ) ≤ |g_res y0| := abs_nonneg _
    show ¬ ((10000 : ℚ) * |g_res y0| < |g_res y0|)
    nlinarith
  rw [if_neg hq]
  rw [show (21 : ℕ) = 20 + 1 from rfl, nr_loop_lin_succ, hstep2]
  norm_num

/-- Witness for claim C3: initial guess 0, whose residual 4 is far outside
tolerance; one iteration reaches exactly 2. -/
theorem nr_lin_one_iteration_witness :
    1 / 1000000 ≤ |g_res 0| ∧ nr_lin 0 (1 / 1000000) 20 = (true, 1, 2) := by
  have habs : |g_res 0| = 4 := by
    rw [show g_res 0 = -4 by norm_num [g_res]]
    rw [abs_of_nonpos (by norm_num)]
    norm_num
  exact ⟨by rw [habs]; norm_num, nr_lin_one_iteration 0 (by rw [habs]; norm_num)⟩

/-- Claim C4: at a stalled, unconverged exit the driver takes the argmax
over abs(dae.xy) — the stacked variable VALUES that nr_step applies the
increment to — not over the residual vector; on the concrete stalled exit
stallExit the reported name therefore differs from the name of the
equation with the largest absolute residual that the claim (and the log
message, which speaks of the largest mismatch) promises. -/
theorem nr_stall_report_wrong_vector :
    nr_stall_report (1 / 1000000) stallExit = some "bus1_v" ∧
    spec_stall_report (1 / 1000000) stallExit = some "bus2_v" ∧
    nr_stall_report (1 / 1000000) stallExit ≠ spec_stall_report (1 / 1000000) stallExit := by
  have h1 : nr_stall_report (1 / 1000000) stallExit = some "bus1_v" := by
    norm_num [nr_stall_report, stallExit, argmaxAbs, argmaxAbsAux, abs, max_def,
      List.getLastD, List.dropLast]
  have h2 : spec_stall_report (1 / 1000000) stallExit = some "bus2_v" := by
    norm_num [spec_stall_report, stallExit, argmaxAbs, argmaxAbsAux, abs, max_def,
      List.getLastD, List.dropLast]
  refine ⟨h1, h2, ?_⟩
  rw [h1, h2]
  simp

/-- One unfolding of the generic Newton loop at positive fuel. -/
theorem nr_loop_gen_succ (m : ℕ → ℚ) (tol mis0 : ℚ) (maxIter fuel niter : ℕ) :
    nr_loop_gen m tol mis0 maxIter (fuel + 1) niter =
      (if m niter < tol then (true, niter)
       else if maxIter < niter then (false, niter)
       else if 10000 * mis0 < m niter then (false, niter)
       else nr_loop_gen m tol mis0 maxIter fuel (niter + 1)) := rfl

/-- If no exit condition fires before relative iteration k, and at k the
mismatch is at or above tolerance and above 10000 * mis0, then the loop
exits at iteration niter + k with converged = false. -/
theorem nr_loop_gen_diverge (m : ℕ → ℚ) (tol mis0 : ℚ) (maxIter : ℕ) :
    ∀ (k fuel niter : ℕ),
      (∀ j, j < k → tol ≤ m (niter + j) ∧ niter + j ≤ maxIter ∧ m (niter + j) ≤ 10000 * mis0) →
      tol ≤ m (niter + k) → 10000 * mis0 < m (niter + k) → k < fuel →
      nr_loop_gen m tol mis0 maxIter fuel niter = (false, niter + k) := by
  intro k
  induction k with
  | zero =>
    intro fuel niter hpre hk1 hk2 hf
    cases fuel with
    | zero => omega
    | succ f =>
      rw [nr_loop_gen_succ]
      have hk1b : tol ≤ m niter := by simpa using hk1
      have hk2b : 10000 * mis0 < m niter := by simpa using hk2
      rw [if_neg (not_lt.mpr hk1b)]
      by_cases hmax : maxIter < niter
      · rw [if_pos hmax, Nat.add_zero]
      · rw [if_neg hmax, if_pos hk2b, Nat.add_zero]
  | succ k ih =>
    intro fuel niter hpre hk1 hk2 hf
    cases fuel with
    | zero => omega
    | succ f =>
      rw [nr_loop_gen_succ]
      have h0 := hpre 0 (by omega)
      rw [Nat.add_zero] at h0
      rw [if_neg (not_lt.mpr h0.1), if_neg (not_lt.mpr h0.2.1), if_neg (not_lt.mpr h0.2.2)]
      have hpre2 : ∀ j, j < k → tol ≤ m (niter + 1 + j) ∧ niter + 1 + j ≤ maxIter ∧
          m (niter + 1 + j) ≤ 10000 * mis0 := by
        intro j hj
        have h := hpre (j + 1) (by omega)
        rw [show niter + (j + 1) = niter + 1 + j by omega] at h
        exact h
      have hk1b : tol ≤ m (niter + 1 + k) := by
        rw [show niter + 1 + k = niter + (k + 1) by omega]; exact hk1
      have hk2b : 10000 * mis0 < m (niter + 1 + k) := by
        rw [show niter + 1 + k = niter + (k + 1) by omega]; exact hk2
      rw [show niter + (k + 1) = niter + 1 + k by omega]
      exact ih f (niter + 1) hpre2 hk1b hk2b (by omega)

/-- Claim C8: whenever the run reaches an iteration k whose mismatch is
still at or above tolerance but exceeds 10000 times the first iteration's
mismatch, the loop terminates unconverged at that iteration (niter = k)
rather than continuing to the configured maximum iteration count. -/
theorem nr_divergence_abort (m : ℕ → ℚ) (tol : ℚ) (maxIter k : ℕ)
    (hpre : ∀ j, j < k → tol ≤ m j ∧ j ≤ maxIter ∧ m j ≤ 10000 * m 0)
    (hk1 : tol ≤ m k) (hk2 : 10000 * m 0 < m k) :
    nr_gen m tol maxIter = (false, k) := by
  have hk_lt : k < maxIter + 2 := by
    rcases Nat.eq_zero_or_pos k with h0 | h0
    · omega
    · have := (hpre (k - 1) (by omega)).2.1
      omega
  have h := nr_loop_gen_diverge m tol (m 0) maxIter k (maxIter + 2) 0
    (by intro j hj; simpa using hpre j hj) (by simpa using hk1) (by simpa using hk2) hk_lt
  simpa [nr_gen] using h

/-- Witness for claim C8: the mismatch stream 1, 1, 1, 100000000, ... with
tolerance 1e-6 and max_iter 20 exits unconverged at iteration 3, far below
the iteration cap. -/
theorem nr_divergence_abort_witness :
    (1 : ℚ) / 1000000 ≤ mis_stream 3 ∧ 10000 * mis_stream 0 < mis_stream 3 ∧
    nr_gen mis_stream (1 / 1000000) 20 = (false, 3) := by
  have hpre : ∀ j, j < 3 → (1 : ℚ) / 1000000 ≤ mis_stream j ∧ j ≤ 20 ∧
      mis_stream j ≤ 10000 * mis_stream 0 := by
    intro j hj
    interval_cases j <;> norm_num [mis_stream]
  refine ⟨by norm_num [mis_stream], by norm_num [mis_stream], ?_⟩
  exact nr_divergence_abort mis_stream (1 / 1000000) 20 3 hpre
    (by norm_num [mis_stream]) (by norm_num [mis_stream])

/-- Claim C6: at a non-initial, non-rewound step, the Derivative zeroes the
output whenever the raw difference quotient is merely LESS THAN 1e-8 — no
absolute value is taken — so a genuine negative derivative of magnitude far
above the threshold is wiped to 0: samples 5 at t = 0 and 0 at t = 1 give
quotient -5 with |-5| well above 1e-8, yet the output is 0 where the claim
requires -5. -/
theorem derivative_zeroes_negative :
    (Derivative.check_var 1 0 (Derivative.check_var 0 5 Derivative.init)).v = 0 ∧
    ((Derivative.check_var 1 0 (Derivative.check_var 0 5 Derivative.init)).mem.getD 1 0
        - (Derivative.check_var 1 0 (Derivative.check_var 0 5 Derivative.init)).mem.getD 0 0)
      / ((Derivative.check_var 1 0 (Derivative.check_var 0 5 Derivative.init)).t.getD 1 0
        - (Derivative.check_var 1 0 (Derivative.check_var 0 5 Derivative.init)).t.getD 0 0) = -5 ∧
    (1 : ℚ) / 100000000 ≤ |(-5 : ℚ)| := by
  have h1 : Derivative.check_var 0 5 Derivative.init
      = ⟨[0, 0], [5, 5], 0, false⟩ := by
    norm_num [Derivative.check_var, Delay.check_var, Derivative.init, List.headD]
  have h2 : Derivative.check_var 1 0 (⟨[0, 0], [5, 5], 0, false⟩ : DelayState)
      = ⟨[0, 1], [5, 0], 0, false⟩ := by
    norm_num [Derivative.check_var, Delay.check_var, List.getLastD, List.headD, List.getD]
  rw [h1, h2]
  have habs : |(-5 : ℚ)| = 5 := by
    rw [abs_of_nonpos (by norm_num)]; norm_num
  refine ⟨rfl, ?_, by rw [habs]; norm_num⟩
  norm_num [List.getD]

/-- Overwriting the last entry with the value it already holds is the
identity. -/
theorem setLast_getLastD (l : List ℚ) (h : l ≠ []) : setLast l (l.getLastD 0) = l := by
  induction l with
  | nil => exact absurd rfl h
  | cons a t ih =>
    cases t with
    | nil => rfl
    | cons b t2 =>
      have hlast : (a :: b :: t2).getLastD 0 = (b :: t2).getLastD 0 := by
        simp [List.getLastD_eq_getLast?]
      have hs : setLast (a :: b :: t2) ((b :: t2).getLastD 0)
          = a :: setLast (b :: t2) ((b :: t2).getLastD 0) := rfl
      rw [hlast, hs, ih (by simp)]

/-- Counterexample to claim C7 as stated: calling Delay.check_var at the
nonzero time dae_t = 1 equal to the last stored time does overwrite the last
sample in place (buffer [3, 4] becomes [3, 7]), but the rewind attribute is
False after the call, not True: the source sets rewind only on the strict
branch dae_t < t[-1]. -/
theorem delay_equal_time_rewind_cex :
    (Delay.check_var DMode.step 3 1 7 ⟨[0, 1], [3, 4], 4, false⟩).rewind = false ∧
    (Delay.check_var DMode.step 3 1 7 ⟨[0, 1], [3, 4], 4, false⟩).mem = [3, 7] := by
  norm_num [Delay.check_var, List.getLastD, setLast, List.set]

/-- Claim C7 (amended): after any Delay.check_var call, rewind is True
exactly when dae_t is nonzero AND strictly less than the last stored time;
for nonzero dae_t not greater than the last stored time the buffer
overwrites its last sample and timestamp in place (same lengths, last
entries replaced) rather than appending; rewind is False whenever dae_t is
zero, equal to, or strictly greater than the last stored time. -/
theorem delay_rewind_iff (mode : DMode) (delay dae_t u : ℚ) (s : DelayState) :
    ((Delay.check_var mode delay dae_t u s).rewind
      = (!(decide (dae_t = 0)) && decide (dae_t < s.t.getLastD 0))) ∧
    (dae_t ≠ 0 → dae_t ≤ s.t.getLastD 0 →
      (Delay.check_var mode delay dae_t u s).mem = setLast s.mem u ∧
      (Delay.check_var mode delay dae_t u s).t = setLast s.t dae_t ∧
      (Delay.check_var mode delay dae_t u s).t.length = s.t.length ∧
      (Delay.check_var mode delay dae_t u s).mem.length = s.mem.length) := by
  by_cases h0 : dae_t = 0
  · constructor
    · unfold Delay.check_var
      rw [if_pos h0]
      simp [h0]
    · exact fun h0' _ => absurd h0 h0'
  · by_cases hlt : dae_t < s.t.getLastD 0
    · have hlt2 : dae_t < s.t.getLast?.getD 0 := by
        rw [← List.getLastD_eq_getLast?]; exact hlt
      constructor
      · unfold Delay.check_var
        rw [if_neg h0, if_pos hlt]
        simp [h0, hlt, hlt2]
      · intro _ _
        unfold Delay.check_var
        rw [if_neg h0, if_pos hlt]
        exact ⟨rfl, rfl, by simp [setLast], by simp [setLast]⟩
    · have hnlt2 : ¬ dae_t < s.t.getLast?.getD 0 := by
        rw [← List.getLastD_eq_getLast?]; exact hlt
      by_cases heq : dae_t = s.t.getLastD 0
      · have hne : s.t ≠ [] := by
          intro hnil
          rw [hnil] at heq
          exact h0 (by simpa using heq)
        have ht : setLast s.t dae_t = s.t := by
          rw [heq]; exact setLast_getLastD s.t hne
        constructor
        · unfold Delay.check_var
          rw [if_neg h0, if_neg hlt, if_pos heq]
          simp [h0, hnlt2]
        · intro _ _
          unfold Delay.check_var
          rw [if_neg h0, if_neg hlt, if_pos heq]
          exact ⟨rfl, ht.symm, rfl, by simp [setLast]⟩
      · have hgt : s.t.getLastD 0 < dae_t :=
          lt_of_le_of_ne (not_lt.mp hlt) (fun hh => heq hh.symm)
        constructor
        · unfold Delay.check_var
          rw [if_neg h0, if_neg hlt, if_neg heq]
          cases mode with
          | step => simp [h0, hnlt2]
          | time => simp [h0, hnlt2, apply_ite DelayState.rewind]
        · intro _ hle
          exact absurd hle (not_le.mpr hgt)

/-- Witness for claim C7 (amended): dae_t = 1, nonzero and below the last
stored time 2; the buffer and stamps are overwritten in place. -/
theorem delay_rewind_iff_witness :
    (1 : ℚ) ≠ 0 ∧ (1 : ℚ) ≤ ([0, 2] : List ℚ).getLastD 0 ∧
    (Delay.check_var DMode.step 3 1 7 ⟨[0, 2], [3, 4], 4, false⟩).mem = setLast [3, 4] 7 ∧
    (Delay.check_var DMode.step 3 1 7 ⟨[0, 2], [3, 4], 4, false⟩).t = setLast [0, 2] 1 := by
  have h1 : (1 : ℚ) ≠ 0 := by norm_num
  have h2 : (1 : ℚ) ≤ ([0, 2] : List ℚ).getLastD 0 := by norm_num [List.getLastD]
  have h := (delay_rewind_iff DMode.step 3 1 7 ⟨[0, 2], [3, 4], 4, false⟩).2 h1 h2
  exact ⟨h1, h2, h.1, h.2.1⟩

/-- The i-th entry of the reduction loop started at offset idx is the
reduction of the slice of length (ref[i]).length starting at idx plus the
lengths of the preceding groups. -/
theorem reduce_compute_get? (f : List ℚ → ℚ) (uv : List ℚ) :
    ∀ (ref : List (List ℕ)) (idx i : ℕ),
      (reduce_compute f uv ref idx).get? i
        = (ref.get? i).map (fun g => f ((uv.drop (idx + group_offset ref i)).take g.length)) := by
  intro ref
  induction ref with
  | nil => intro idx i; simp [reduce_compute]
  | cons g rest ih =>
    intro idx i
    cases i with
    | zero => simp [reduce_compute, group_offset]
    | succ i2 =>
      simp only [reduce_compute, List.get?_cons_succ]
      rw [ih (idx + g.length) i2]
      have hoff : group_offset (g :: rest) (i2 + 1) = g.length + group_offset rest i2 := by
        simp [group_offset, List.take_succ_cons]
      rw [hoff, show idx + (g.length + group_offset rest i2)
        = idx + g.length + group_offset rest i2 by omega]

/-- The reduction loop yields one value per group. -/
theorem reduce_compute_length (f : List ℚ → ℚ) (uv : List ℚ) :
    ∀ (ref : List (List ℕ)) (idx : ℕ), (reduce_compute f uv ref idx).length = ref.length := by
  intro ref
  induction ref with
  | nil => intro idx; rfl
  | cons g rest ih => intro idx; simp [reduce_compute, ih]

/-- Claim C9: the first read of ServiceReduce.v computes one reduced value
per group — the reduction function applied to the contiguous slice of u.v
belonging to that group — while every later read returns the cached array
unchanged for ANY changed input uv2, until the cache is reset to None (in
which case the first conjunct, universally quantified over uv, applies
again). -/
theorem service_reduce_cached (f : List ℚ → ℚ) (ref : List (List ℕ)) (uv uv2 : List ℚ) :
    (∀ i, i < ref.length →
      (ServiceReduce.read f ref uv none).1.get? i = some (f (group_slice uv ref i))) ∧
    (ServiceReduce.read f ref uv none).1.length = ref.length ∧
    ServiceReduce.read f ref uv2 (ServiceReduce.read f ref uv none).2
      = ((ServiceReduce.read f ref uv none).1, (ServiceReduce.read f ref uv none).2) := by
  refine ⟨?_, reduce_compute_length f uv ref 0, rfl⟩
  intro i hi
  have hg : ref.getD i [] = ref[i] := by
    simp [List.getD_eq_getElem?_getD, List.getElem?_eq_getElem hi]
  show (reduce_compute f uv ref 0).get? i = some (f (group_slice uv ref i))
  rw [reduce_compute_get? f uv ref 0 i, List.get?_eq_getElem?, List.getElem?_eq_getElem hi]
  simp [group_slice, hg, List.getElem?_eq_getElem hi]

/-- Witness for claim C9: groups [[0, 1], [2]] over input [1, 2, 3]; the
first read reduces group 0 to sum [1, 2], and a later read over the changed
input [10, 20, 30] still returns the cached result. -/
theorem service_reduce_cached_witness :
    (0 < ([[0, 1], [2]] : List (List ℕ)).length) ∧
    (ServiceReduce.read List.sum [[0, 1], [2]] [1, 2, 3] none).1.get? 0
      = some (List.sum (group_slice [1, 2, 3] [[0, 1], [2]] 0)) ∧
    ServiceReduce.read List.sum [[0, 1], [2]] [10, 20, 30]
        (ServiceReduce.read List.sum [[0, 1], [2]] [1, 2, 3] none).2
      = ((ServiceReduce.read List.sum [[0, 1], [2]] [1, 2, 3] none).1,
         (ServiceReduce.read List.sum [[0, 1], [2]] [1, 2, 3] none).2) :=
  ⟨by norm_num,
   (service_reduce_cached List.sum [[0, 1], [2]] [1, 2, 3] [10, 20, 30]).1 0 (by norm_num),
   (service_reduce_cached List.sum [[0, 1], [2]] [1, 2, 3] [10, 20, 30]).2.2⟩

end Andes
